import Mathlib

/-!
Shallow embedding of the srouter membership layer (src/serf.go) and proofs
about its event loop, registry, lifecycle and address parsing.

The Go source keeps a `sync.Map` registry keyed by member id, a background
event loop consuming serf events, and a small lifecycle facade
(Start/Stop/Join).  Here the registry is an association list whose `store`
and `eraseKey` have exactly the single-key replace/delete semantics of
`sync.Map.Store` / `sync.Map.Delete`; the event loop is a pure function from
an event list and an initial registry to a final registry together with the
ordered trace of hook invocations and registry mutations it performs.
-/

namespace Srouter

/-- Modelled from the spec: the Member value entity (defined in a file of
this repository outside src/serf.go): id, `host:port` endpoint strings,
comma-separated seed list (`Routers`, read by `Start`), and a string tag
mapping.  Tags are an association list, matching a Go `map[string]string`
read wholesale. -/
structure Member where
  Id : String
  Addr : String
  Advertise : String
  Routers : String
  Tags : List (String × String)
deriving DecidableEq

/-- Modelled from the spec: `NewSimpleMember(id, addr, advertise)` constructs
a Member with the given id and endpoints and empty tags/seeds (constructor
defined outside src/serf.go; src/serf.go line 144 calls it with
`member.Name, addr, addr`). -/
def NewSimpleMember (id addr advertise : String) : Member :=
  { Id := id, Addr := addr, Advertise := advertise, Routers := "", Tags := [] }

/-- Modelled from the spec: `SetTags` stores the tag mapping on the member
(src/serf.go line 145 calls it with the transport's reported tag set). -/
def Member.SetTags (m : Member) (tags : List (String × String)) : Member :=
  { m with Tags := tags }

/-- Modelled from the spec: the optional Handler capability with three hooks;
a Go `error` result is `Option String` (`some msg` = non-nil error). -/
structure Handler where
  OnMemberJoin : Member → Option String
  OnMemberUpdate : Member → Option String
  OnMemberLeave : Member → Option String

/-- Event types of the underlying serf transport that `Serf.Loop` switches
on; `memberReap`, `user` and `query` are the remaining serf event types,
which fall through the switch. -/
inductive EventType
  | memberJoin
  | memberLeave
  | memberFailed
  | memberUpdate
  | memberReap
  | user
  | query
deriving DecidableEq

/-- A peer descriptor carried inside a serf member event: `Name`, `Addr`
(printed IP), `Port` and `Tags` as used at src/serf.go lines 142-145. -/
structure SerfMember where
  name : String
  addr : String
  port : Nat
  tags : List (String × String)
deriving DecidableEq

/-- A transport event as seen by the loop: its type plus the batched peer
descriptors (non-member event types carry no descriptors the loop looks at). -/
structure MemberEvent where
  eventType : EventType
  members : List SerfMember
deriving DecidableEq

/-- The registry (`Serf.members`, a `sync.Map`) as an association list from
id to Member; `store`/`eraseKey`/`lookup` give the single-key atomic
Store/Delete/Load semantics. -/
abbrev Registry := List (String × Member)

/-- `sync.Map.Delete`: drop every entry whose key is `k`. -/
def eraseKey : Registry → String → Registry
  | [], _ => []
  | kv :: rest, k => if kv.1 = k then eraseKey rest k else kv :: eraseKey rest k

/-- `sync.Map.Store`: bind `k` to `m`, replacing any previous binding. -/
def store (r : Registry) (k : String) (m : Member) : Registry :=
  (k, m) :: eraseKey r k

/-- `sync.Map.Load`: the current binding of `k`, if any. -/
def lookup : Registry → String → Option Member
  | [], _ => none
  | kv :: rest, k => if kv.1 = k then some kv.2 else lookup rest k

/-- The ids present in the registry. -/
def keys (r : Registry) : List String :=
  r.map Prod.fst

/-- The endpoint string built at src/serf.go line 143:
`fmt.Sprintf with member.Addr and member.Port`. -/
def memberAddr (sm : SerfMember) : String :=
  sm.addr ++ ":" ++ toString sm.port

/-- The event translation done at src/serf.go lines 143-145:
`NewSimpleMember(member.Name, addr, addr)` followed by `SetTags`. -/
def translate (sm : SerfMember) : Member :=
  (NewSimpleMember sm.name (memberAddr sm) (memberAddr sm)).SetTags sm.tags

/-- The observable steps the loop performs, in order: hook invocations and
registry mutations. -/
inductive Action
  | hookJoin (m : Member)
  | hookUpdate (m : Member)
  | hookLeave (m : Member)
  | storeMember (id : String) (m : Member)
  | deleteMember (id : String)

/-- The join arm of `Serf.Loop` (src/serf.go lines 141-156) for one peer
descriptor: translate, invoke `OnMemberJoin` when a handler is installed,
and store the member whether or not the hook errored (the error is only
logged). -/
def processJoin (hopt : Option Handler) (r : Registry) (sm : SerfMember) :
    Registry × List Action :=
  let latest := translate sm
  match hopt with
  | some h =>
    match h.OnMemberJoin latest with
    | none =>
      (store r latest.Id latest,
       [Action.hookJoin latest, Action.storeMember latest.Id latest])
    | some _ =>
      (store r latest.Id latest,
       [Action.hookJoin latest, Action.storeMember latest.Id latest])
  | none =>
    (store r latest.Id latest, [Action.storeMember latest.Id latest])

/-- The update arm of `Serf.Loop` (src/serf.go lines 158-173), same
fail-open shape as the join arm but calling `OnMemberUpdate`. -/
def processUpdate (hopt : Option Handler) (r : Registry) (sm : SerfMember) :
    Registry × List Action :=
  let latest := translate sm
  match hopt with
  | some h =>
    match h.OnMemberUpdate latest with
    | none =>
      (store r latest.Id latest,
       [Action.hookUpdate latest, Action.storeMember latest.Id latest])
    | some _ =>
      (store r latest.Id latest,
       [Action.hookUpdate latest, Action.storeMember latest.Id latest])
  | none =>
    (store r latest.Id latest, [Action.storeMember latest.Id latest])

/-- The leave/failed arm of `Serf.Loop` (src/serf.go lines 175-187): delete
the id first, then notify `OnMemberLeave` when a handler is installed; the
hook result is only logged. -/
def processLeave (hopt : Option Handler) (r : Registry) (sm : SerfMember) :
    Registry × List Action :=
  let latest := translate sm
  let r1 := eraseKey r latest.Id
  match hopt with
  | some h =>
    match h.OnMemberLeave latest with
    | none => (r1, [Action.deleteMember latest.Id, Action.hookLeave latest])
    | some _ => (r1, [Action.deleteMember latest.Id, Action.hookLeave latest])
  | none => (r1, [Action.deleteMember latest.Id])

/-- Process each peer descriptor of an event batch in order, threading the
registry and concatenating the traces. -/
def processMembers (step : Registry → SerfMember → Registry × List Action) :
    Registry → List SerfMember → Registry × List Action
  | r, [] => (r, [])
  | r, sm :: rest =>
    let first := step r sm
    let restOut := processMembers step first.1 rest
    (restOut.1, first.2 ++ restOut.2)

/-- One iteration of `Serf.Loop`'s switch (src/serf.go lines 140-188): only
the four member event types touch the registry or a hook; every other event
type falls through. -/
def processEvent (hopt : Option Handler) (e : MemberEvent) (r : Registry) :
    Registry × List Action :=
  match e.eventType with
  | EventType.memberJoin => processMembers (processJoin hopt) r e.members
  | EventType.memberUpdate => processMembers (processUpdate hopt) r e.members
  | EventType.memberLeave => processMembers (processLeave hopt) r e.members
  | EventType.memberFailed => processMembers (processLeave hopt) r e.members
  | _ => (r, [])

/-- `Serf.Loop` (src/serf.go lines 138-190) over a finite event sequence:
events are consumed strictly in order by the single consumer. -/
def processEvents (hopt : Option Handler) :
    List MemberEvent → Registry → Registry × List Action
  | [], r => (r, [])
  | e :: rest, r =>
    let first := processEvent hopt e r
    let restOut := processEvents hopt rest first.1
    (restOut.1, first.2 ++ restOut.2)

/-- Split a character list at its last colon: `some (before, after)` when a
colon exists, `none` otherwise. -/
def splitAtLastColon : List Char → Option (List Char × List Char)
  | [] => none
  | c :: cs =>
    match splitAtLastColon cs with
    | some hp => some (c :: hp.1, hp.2)
    | none => if c = ':' then some ([], cs) else none

/-- Model of the external Go stdlib `net.SplitHostPort`: split at the last
colon; a host containing further colons must be bracketed `[...]`; stray
brackets in host or port are rejected; `none` models the error returns
(missing port, too many colons, unexpected bracket). -/
def netSplitHostPort (addr : String) : Option (String × String) :=
  match splitAtLastColon addr.data with
  | none => none
  | some hp =>
    if hp.2.contains '[' ∨ hp.2.contains ']' then none
    else if hp.1.contains ':' then
      if hp.1.head? = some '[' ∧ hp.1.getLast? = some ']' then
        some (String.mk ((hp.1.drop 1).dropLast), String.mk hp.2)
      else none
    else if hp.1.contains '[' ∨ hp.1.contains ']' then none
    else some (String.mk hp.1, String.mk hp.2)

/-- Decimal digits to a number, `none` on any non-digit. -/
def digitsToNat (acc : Nat) : List Char → Option Nat
  | [] => some acc
  | c :: cs =>
    if c.isDigit then digitsToNat (acc * 10 + (c.toNat - 48)) cs else none

/-- Model of the external Go stdlib `strconv.Atoi`: optional sign followed by
at least one decimal digit (the 64-bit range cutoff is irrelevant here and
omitted); `none` models a non-nil error. -/
def atoi (s : String) : Option Int :=
  match s.data with
  | [] => none
  | '+' :: cs =>
    if cs = [] then none else (digitsToNat 0 cs).map Int.ofNat
  | '-' :: cs =>
    if cs = [] then none else (digitsToNat 0 cs).map (fun n => -(Int.ofNat n))
  | cs => (digitsToNat 0 cs).map Int.ofNat

/-- The error values of the package: the two parse errors returned by
`Serf.splitHostPort` (declared in a file of this repository outside
src/serf.go; used at src/serf.go lines 128 and 133) and a transport
creation error propagated verbatim from `serf.Create`. -/
inductive SrouterError
  | ErrParseAddrToHostPort
  | ErrParsePort
  | ErrCreate (msg : String)
deriving DecidableEq

/-- `Serf.splitHostPort` (src/serf.go lines 125-136): `net.SplitHostPort`
failure becomes `ErrParseAddrToHostPort`, a non-numeric port becomes
`ErrParsePort`. -/
def Serf.splitHostPort (addr : String) : Except SrouterError (String × Int) :=
  match netSplitHostPort addr with
  | none => Except.error SrouterError.ErrParseAddrToHostPort
  | some hp =>
    match atoi hp.2 with
    | none => Except.error SrouterError.ErrParsePort
    | some port => Except.ok (hp.1, port)

/-- Whether an `Except` result is the error case. -/
def isErr : Except SrouterError (String × Int) → Bool
  | Except.error _ => true
  | Except.ok _ => false

/-- The lifecycle state of the Go event channel `Serf.events`: `unready` is
the nil channel of a zero-value `Serf`, before `Start` ran `make`. -/
inductive ChanState
  | unready
  | opened
  | closed
deriving DecidableEq

/-- Go runtime faults relevant to `close`: closing a nil channel and closing
an already-closed channel both abort the program. -/
inductive RuntimeFault
  | closeOfNilChannel
  | closeOfClosedChannel
deriving DecidableEq

/-- Go `close(ch)` semantics on the channel lifecycle state. -/
def closeChannel : ChanState → Except RuntimeFault ChanState
  | ChanState.unready => Except.error RuntimeFault.closeOfNilChannel
  | ChanState.opened => Except.ok ChanState.closed
  | ChanState.closed => Except.error RuntimeFault.closeOfClosedChannel

/-- The lifecycle-relevant mutable state of a `Serf` value: the event
channel, whether `serf.Create` succeeded (`s.serf != nil`), whether the
background loop goroutine was launched, and whether `Shutdown` was called
on the transport. -/
structure SerfState where
  eventsCh : ChanState
  serfCreated : Bool
  loopStarted : Bool
  shutdownCalled : Bool
deriving DecidableEq

/-- `NewSerf` (src/serf.go lines 32-37): zero-value channel and transport,
no loop running. -/
def NewSerf : SerfState :=
  { eventsCh := ChanState.unready, serfCreated := false,
    loopStarted := false, shutdownCalled := false }

/-- The external transport's responses used by `Start`: the error from
`serf.Create` and the error from `serf.Join` on a given seed list. -/
structure Transport where
  createResult : Option String
  joinResult : List String → Option String

/-- `Serf.Start` (src/serf.go lines 67-118): make the event channel, parse
the advertise then the bind address (returning the parse error on failure),
create the transport (propagating its error), launch the loop, and if seed
routers are configured issue a join whose error is discarded. -/
def Serf.Start (s : SerfState) (m : Member) (tr : Transport) :
    Option SrouterError × SerfState :=
  let s1 : SerfState := { s with eventsCh := ChanState.opened }
  match Serf.splitHostPort m.Advertise with
  | Except.error e => (some e, s1)
  | Except.ok _ =>
    match Serf.splitHostPort m.Addr with
    | Except.error e => (some e, s1)
    | Except.ok _ =>
      match tr.createResult with
      | some msg => (some (SrouterError.ErrCreate msg), s1)
      | none =>
        let s2 : SerfState :=
          { s1 with serfCreated := true, loopStarted := true }
        if m.Routers.length > 0 then
          let _ := tr.joinResult (m.Routers.splitOn (","))
          (none, s2)
        else (none, s2)

/-- `Serf.Stop` (src/serf.go lines 60-65): shut the transport down when it
was created, then unconditionally `close(s.events)` — a Go runtime fault
when the channel was never made. -/
def Serf.Stop (s : SerfState) : Except RuntimeFault SerfState :=
  let s1 : SerfState :=
    if s.serfCreated then { s with shutdownCalled := true } else s
  match closeChannel s1.eventsCh with
  | Except.error f => Except.error f
  | Except.ok c => Except.ok { s1 with eventsCh := c }

/-- The argument record of a call to the external `serf.(*Serf).Join`:
the seed list and the `ignoreOld` flag (when true, the cluster's old user
events are ignored rather than replayed for the joining node). -/
structure JoinCall where
  existing : List String
  ignoreOld : Bool
deriving DecidableEq

/-- The call `Serf.Join` forwards to the transport (src/serf.go line 121):
`s.serf.Join(members, true)`. -/
def serfJoinCall (members : List String) : JoinCall :=
  { existing := members, ignoreOld := true }

/-- `Serf.Join` (src/serf.go lines 120-123): forward the seed list to the
transport and return its error verbatim, discarding the contact count. -/
def Serf.Join (joinFn : JoinCall → Nat × Option String) (members : List String) :
    Option String :=
  (joinFn (serfJoinCall members)).2

/-- A handler whose three hooks all return an error, for concrete runs. -/
def rejectAll : Handler :=
  { OnMemberJoin := fun _ => some ("rejected"),
    OnMemberUpdate := fun _ => some ("rejected"),
    OnMemberLeave := fun _ => some ("rejected") }

/-- Concrete peer descriptor p1 with tag group=a. -/
def smA : SerfMember :=
  { name := "p1", addr := "10.0.0.1", port := 7946, tags := [("group", "a")] }

/-- Concrete peer descriptor p1 with tag group=b. -/
def smB : SerfMember :=
  { name := "p1", addr := "10.0.0.1", port := 7946, tags := [("group", "b")] }

/-- A local member with well-formed addresses and no seed routers. -/
def mGood : Member :=
  { Id := "n1", Addr := "127.0.0.1:7946", Advertise := "127.0.0.1:7946",
    Routers := "", Tags := [] }

/-- A local member whose advertise address has no port separator. -/
def mBadAdvertise : Member :=
  { Id := "n1", Addr := "127.0.0.1:7946", Advertise := "1.2.3.4",
    Routers := "", Tags := [] }

/-- A local member with well-formed addresses and one configured seed. -/
def mSeeds : Member :=
  { Id := "n1", Addr := "127.0.0.1:7946", Advertise := "127.0.0.1:7946",
    Routers := "10.0.0.2:7946", Tags := [] }

/-- A transport where creation and joins succeed. -/
def trOk : Transport :=
  { createResult := none, joinResult := fun _ => none }

/-- A transport where creation succeeds but every join fails. -/
def trJoinFails : Transport :=
  { createResult := none, joinResult := fun _ => some ("no seed reachable") }

theorem translate_Id (sm : SerfMember) : (translate sm).Id = sm.name := rfl

theorem translate_Addr (sm : SerfMember) : (translate sm).Addr = memberAddr sm := rfl

theorem translate_Advertise (sm : SerfMember) :
    (translate sm).Advertise = memberAddr sm := rfl

theorem translate_Tags (sm : SerfMember) : (translate sm).Tags = sm.tags := rfl

theorem lookup_store_self (r : Registry) (k : String) (m : Member) :
    lookup (store r k m) k = some m := by
  simp [store, lookup]

theorem lookup_eraseKey_self (k : String) :
    ∀ r : Registry, lookup (eraseKey r k) k = none := by
  intro r
  induction r with
  | nil => rfl
  | cons kv rest ih =>
    by_cases h : kv.1 = k
    · simpa [eraseKey, if_pos h] using ih
    · simpa [eraseKey, if_neg h, lookup, h] using ih

theorem lookup_eraseKey_other (k k2 : String) (hne : k2 ≠ k) :
    ∀ r : Registry, lookup (eraseKey r k) k2 = lookup r k2 := by
  intro r
  induction r with
  | nil => rfl
  | cons kv rest ih =>
    by_cases h : kv.1 = k
    · have hkv : kv.1 ≠ k2 := fun hh => hne (hh ▸ h)
      simp [eraseKey, if_pos h, lookup, hkv, ih]
    · simp only [eraseKey, if_neg h]
      by_cases h2 : kv.1 = k2
      · simp [lookup, h2]
      · simp [lookup, h2, ih]

theorem eraseKey_idem (k : String) :
    ∀ r : Registry, eraseKey (eraseKey r k) k = eraseKey r k := by
  intro r
  induction r with
  | nil => rfl
  | cons kv rest ih =>
    by_cases h : kv.1 = k
    · simp [eraseKey, if_pos h, ih]
    · simp [eraseKey, if_neg h, ih]

theorem eraseKey_store_self (r : Registry) (k : String) (m : Member) :
    eraseKey (store r k m) k = eraseKey r k := by
  simp [store, eraseKey, eraseKey_idem]

theorem eraseKey_sublist (k : String) :
    ∀ r : Registry, (eraseKey r k).Sublist r := by
  intro r
  induction r with
  | nil => simp [eraseKey]
  | cons kv rest ih =>
    by_cases h : kv.1 = k
    · simp only [eraseKey, if_pos h]
      exact List.Sublist.cons _ ih
    · simp only [eraseKey, if_neg h]
      exact List.Sublist.cons₂ _ ih

theorem not_mem_keys_eraseKey (k : String) :
    ∀ r : Registry, k ∉ keys (eraseKey r k) := by
  intro r
  induction r with
  | nil => simp [eraseKey, keys]
  | cons kv rest ih =>
    by_cases h : kv.1 = k
    · simpa [eraseKey, if_pos h] using ih
    · simp only [eraseKey, if_neg h, keys, List.map_cons, List.mem_cons]
      rintro (h1 | h2)
      · exact h h1.symm
      · exact ih h2

theorem nodup_keys_eraseKey (r : Registry) (k : String)
    (hnd : (keys r).Nodup) : (keys (eraseKey r k)).Nodup :=
  List.Nodup.sublist (List.Sublist.map Prod.fst (eraseKey_sublist k r)) hnd

theorem nodup_keys_store (r : Registry) (k : String) (m : Member)
    (hnd : (keys r).Nodup) : (keys (store r k m)).Nodup := by
  simp only [store, keys, List.map_cons]
  exact List.nodup_cons.mpr
    ⟨not_mem_keys_eraseKey k r, nodup_keys_eraseKey r k hnd⟩

theorem eraseKey_of_lookup_none (k : String) :
    ∀ r : Registry, lookup r k = none → eraseKey r k = r := by
  intro r
  induction r with
  | nil => intro _; rfl
  | cons kv rest ih =>
    intro hl
    by_cases h : kv.1 = k
    · simp [lookup, if_pos h] at hl
    · simp only [lookup, if_neg h] at hl
      simp only [eraseKey, if_neg h]
      rw [ih hl]

theorem processJoin_fst (hopt : Option Handler) (r : Registry) (sm : SerfMember) :
    (processJoin hopt r sm).1 = store r (translate sm).Id (translate sm) := by
  cases hopt with
  | none => rfl
  | some h => cases hh : h.OnMemberJoin (translate sm) <;> simp [processJoin, hh]

theorem processUpdate_fst (hopt : Option Handler) (r : Registry) (sm : SerfMember) :
    (processUpdate hopt r sm).1 = store r (translate sm).Id (translate sm) := by
  cases hopt with
  | none => rfl
  | some h => cases hh : h.OnMemberUpdate (translate sm) <;> simp [processUpdate, hh]

theorem processLeave_fst (hopt : Option Handler) (r : Registry) (sm : SerfMember) :
    (processLeave hopt r sm).1 = eraseKey r (translate sm).Id := by
  cases hopt with
  | none => rfl
  | some h => cases hh : h.OnMemberLeave (translate sm) <;> simp [processLeave, hh]

theorem processMembers_single (step : Registry → SerfMember → Registry × List Action)
    (r : Registry) (sm : SerfMember) :
    processMembers step r [sm] = ((step r sm).1, (step r sm).2) := by
  simp [processMembers]

theorem processLeave_some (h : Handler) (r : Registry) (sm : SerfMember) :
    processLeave (some h) r sm =
      (eraseKey r (translate sm).Id,
       [Action.deleteMember (translate sm).Id, Action.hookLeave (translate sm)]) := by
  cases hh : h.OnMemberLeave (translate sm) <;> simp [processLeave, hh]

/-- C1: for every join or update event processed while a Handler is installed
whose hook returns an error, the translated Member is nonetheless present in
the registry afterward with the translated payload (id, endpoint, tags), and
the corresponding hook is invoked exactly once, before the registry mutation
(the action trace is exactly the hook followed by the store). -/
theorem join_update_hook_error_fail_open (h : Handler) (sm : SerfMember)
    (r : Registry) (err : String) :
    (h.OnMemberJoin (translate sm) = some err →
      processEvent (some h) ⟨EventType.memberJoin, [sm]⟩ r =
        (store r (translate sm).Id (translate sm),
         [Action.hookJoin (translate sm),
          Action.storeMember (translate sm).Id (translate sm)]) ∧
      lookup (processEvent (some h) ⟨EventType.memberJoin, [sm]⟩ r).1
        (translate sm).Id = some (translate sm)) ∧
    (h.OnMemberUpdate (translate sm) = some err →
      processEvent (some h) ⟨EventType.memberUpdate, [sm]⟩ r =
        (store r (translate sm).Id (translate sm),
         [Action.hookUpdate (translate sm),
          Action.storeMember (translate sm).Id (translate sm)]) ∧
      lookup (processEvent (some h) ⟨EventType.memberUpdate, [sm]⟩ r).1
        (translate sm).Id = some (translate sm)) ∧
    (translate sm).Id = sm.name ∧
    (translate sm).Addr = memberAddr sm ∧
    (translate sm).Advertise = memberAddr sm ∧
    (translate sm).Tags = sm.tags := by
  refine ⟨fun hj => ⟨?_, ?_⟩, fun hu => ⟨?_, ?_⟩, rfl, rfl, rfl, rfl⟩
  · simp [processEvent, processMembers, processJoin, hj]
  · simp [processEvent, processMembers, processJoin, hj, lookup_store_self]
  · simp [processEvent, processMembers, processUpdate, hu]
  · simp [processEvent, processMembers, processUpdate, hu, lookup_store_self]

/-- C1 witness: the rejecting handler errors on p1's join, yet p1 is present
afterward with the translated payload. -/
theorem join_update_hook_error_fail_open_witness :
    rejectAll.OnMemberJoin (translate smA) = some ("rejected") ∧
    lookup (processEvent (some rejectAll) ⟨EventType.memberJoin, [smA]⟩ []).1
      (translate smA).Id = some (translate smA) :=
  ⟨rfl, ((join_update_hook_error_fail_open rejectAll smA [] ("rejected")).1 rfl).2⟩

/-- C2: for every leave or failed event, the removal is applied
unconditionally and before the OnMemberLeave hook (the action trace is
exactly the delete followed by the hook; without a handler, just the
delete), and a lookup by that id afterward returns not-found regardless of
the leave hook's result. -/
theorem leave_failed_removes_before_hook (h : Handler) (sm : SerfMember)
    (r : Registry) (t : EventType)
    (ht : t = EventType.memberLeave ∨ t = EventType.memberFailed) :
    processEvent (some h) ⟨t, [sm]⟩ r =
      (eraseKey r (translate sm).Id,
       [Action.deleteMember (translate sm).Id, Action.hookLeave (translate sm)]) ∧
    processEvent none ⟨t, [sm]⟩ r =
      (eraseKey r (translate sm).Id, [Action.deleteMember (translate sm).Id]) ∧
    lookup (processEvent (some h) ⟨t, [sm]⟩ r).1 (translate sm).Id = none := by
  rcases ht with rfl | rfl <;>
    exact ⟨by simp [processEvent, processMembers, processLeave_some],
      by simp [processEvent, processMembers, processLeave],
      by simp [processEvent, processMembers, processLeave_some, lookup_eraseKey_self]⟩

/-- C2 witness: after a leave event for p1 handled by the rejecting handler,
looking p1 up in the registry that contained it returns none. -/
theorem leave_failed_removes_before_hook_witness :
    lookup (processEvent (some rejectAll) ⟨EventType.memberLeave, [smA]⟩
      [(("p1" : String), translate smA)]).1 (translate smA).Id = none :=
  (leave_failed_removes_before_hook rejectAll smA [("p1", translate smA)]
    EventType.memberLeave (Or.inl rfl)).2.2

/-- C5: processing an update event after a join event for the same id
replaces the member's entry wholesale: the subsequent lookup yields exactly
the translation of the update's payload, whose tags are exactly the update's
tag set and nothing from the earlier one. -/
theorem update_after_join_replaces_wholesale (hopt : Option Handler)
    (sm1 sm2 : SerfMember) (r : Registry) (_hid : sm1.name = sm2.name) :
    lookup (processEvents hopt
      [⟨EventType.memberJoin, [sm1]⟩, ⟨EventType.memberUpdate, [sm2]⟩] r).1
      sm2.name = some (translate sm2) ∧
    (translate sm2).Tags = sm2.tags ∧ (translate sm2).Id = sm2.name := by
  refine ⟨?_, rfl, rfl⟩
  have h1 : (processEvents hopt
      [⟨EventType.memberJoin, [sm1]⟩, ⟨EventType.memberUpdate, [sm2]⟩] r).1
      = (processUpdate hopt (processJoin hopt r sm1).1 sm2).1 := by
    simp [processEvents, processEvent, processMembers]
  rw [h1, processUpdate_fst, translate_Id, lookup_store_self]

/-- C5 witness: Join(p1, group=a) then Update(p1, group=b) leaves p1 mapped
to tags exactly group=b. -/
theorem update_after_join_replaces_wholesale_witness :
    smA.name = smB.name ∧
    lookup (processEvents none
      [⟨EventType.memberJoin, [smA]⟩, ⟨EventType.memberUpdate, [smB]⟩] []).1
      smB.name = some (translate smB) ∧
    (translate smB).Tags = [(("group" : String), "b")] :=
  ⟨rfl, (update_after_join_replaces_wholesale none smA smB [] rfl).1, rfl⟩

/-- C6: from any starting registry, processing Join(p1), Leave(p1), Join(p1)
yields a final registry identical to processing only the last Join(p1). -/
theorem join_leave_join_last_join_wins (hopt : Option Handler)
    (sm1 smL sm2 : SerfMember) (r : Registry)
    (h1 : sm1.name = sm2.name) (h2 : smL.name = sm2.name) :
    (processEvents hopt
      [⟨EventType.memberJoin, [sm1]⟩, ⟨EventType.memberLeave, [smL]⟩,
       ⟨EventType.memberJoin, [sm2]⟩] r).1 =
    (processEvents hopt [⟨EventType.memberJoin, [sm2]⟩] r).1 := by
  have hL : (processEvents hopt
      [⟨EventType.memberJoin, [sm1]⟩, ⟨EventType.memberLeave, [smL]⟩,
       ⟨EventType.memberJoin, [sm2]⟩] r).1 =
      (processJoin hopt (processLeave hopt (processJoin hopt r sm1).1 smL).1 sm2).1 := by
    simp [processEvents, processEvent, processMembers]
  have hR : (processEvents hopt [⟨EventType.memberJoin, [sm2]⟩] r).1 =
      (processJoin hopt r sm2).1 := by
    simp [processEvents, processEvent, processMembers]
  rw [hL, hR, processJoin_fst, processJoin_fst, processLeave_fst, processJoin_fst,
    translate_Id, translate_Id, translate_Id, h1, h2, eraseKey_store_self]
  simp [store, eraseKey_idem]

/-- C6 witness: Join(p1), Leave(p1), Join(p1) from the empty registry equals
just the last Join(p1). -/
theorem join_leave_join_last_join_wins_witness :
    (processEvents none
      [⟨EventType.memberJoin, [smA]⟩, ⟨EventType.memberLeave, [smA]⟩,
       ⟨EventType.memberJoin, [smB]⟩] []).1 =
    (processEvents none [⟨EventType.memberJoin, [smB]⟩] []).1 :=
  join_leave_join_last_join_wins none smA smA smB [] rfl rfl

/-- C7: the registry holds at most one Member per id and the operations
preserve that: on a registry with no duplicate ids, `store` (Upsert) and
`eraseKey` (Remove) keep the ids duplicate-free, Upsert binds exactly
`member.Id` (and no other id) to the member, Remove is a no-op when the id
is absent, and a removed id is no longer found. -/
theorem registry_at_most_one_per_id (r : Registry) (k : String) (m : Member)
    (hnd : (keys r).Nodup) :
    (keys (store r k m)).Nodup ∧
    (keys (eraseKey r k)).Nodup ∧
    lookup (store r k m) k = some m ∧
    (∀ k2, k2 ≠ k → lookup (store r k m) k2 = lookup r k2) ∧
    (lookup r k = none → eraseKey r k = r) ∧
    lookup (eraseKey r k) k = none := by
  refine ⟨nodup_keys_store r k m hnd, nodup_keys_eraseKey r k hnd,
    lookup_store_self r k m, ?_, eraseKey_of_lookup_none k r,
    lookup_eraseKey_self k r⟩
  intro k2 hne
  have hk : ¬ k = k2 := fun hh => hne hh.symm
  simp [store, lookup, hk, lookup_eraseKey_other k k2 hne r]

/-- C7 witness: upserting p1 into a duplicate-free registry makes p1 map to
exactly the stored member. -/
theorem registry_at_most_one_per_id_witness :
    lookup (store [(("q7" : String), translate smA)] "p1" (translate smB)) "p1"
      = some (translate smB) :=
  (registry_at_most_one_per_id [("q7", translate smA)] "p1" (translate smB)
    (by simp [keys])).2.2.1

/-- C10: an event whose type is not member-join, member-update, member-leave
or member-failed leaves the registry unchanged and performs no action at
all, in particular it invokes no Handler hook. -/
theorem non_member_event_no_effect (hopt : Option Handler) (e : MemberEvent)
    (r : Registry)
    (ht : e.eventType = EventType.memberReap ∨ e.eventType = EventType.user ∨
      e.eventType = EventType.query) :
    processEvent hopt e r = (r, []) := by
  rcases ht with h | h | h <;> simp [processEvent, h]

/-- C10 witness: a user event processed with the rejecting handler installed
leaves a one-member registry untouched and produces no actions. -/
theorem non_member_event_no_effect_witness :
    processEvent (some rejectAll) ⟨EventType.user, [smA]⟩
      [(("p1" : String), translate smA)] = ([("p1", translate smA)], []) :=
  non_member_event_no_effect (some rejectAll) ⟨EventType.user, [smA]⟩
    [("p1", translate smA)] (Or.inr (Or.inl rfl))

/-- C3 counterexample: the join call the code forwards for a concrete seed
list carries `ignoreOld = true`, so the claim that the ignore-old option is
disabled (false) fails. -/
theorem join_ignore_old_disabled_counterexample :
    ¬ (serfJoinCall [("10.0.0.1:7946")]).ignoreOld = false := by decide

/-- C3 amended: `Join(seeds)` forwards exactly the seed list with the
ignore-old option enabled (`true`, so joining-node cluster history is not
requested to be replayed), and the transport's error is propagated verbatim
to the caller. -/
theorem join_forwards_ignore_old_enabled
    (joinFn : JoinCall → Nat × Option String) (members : List String) :
    (serfJoinCall members).existing = members ∧
    (serfJoinCall members).ignoreOld = true ∧
    Serf.Join joinFn members = (joinFn (serfJoinCall members)).2 :=
  ⟨rfl, rfl, rfl⟩

theorem splitHostPort_error_kinds (a : String) (e : SrouterError)
    (he : Serf.splitHostPort a = Except.error e) :
    e = SrouterError.ErrParseAddrToHostPort ∨ e = SrouterError.ErrParsePort := by
  cases hn : netSplitHostPort a with
  | none =>
    simp [Serf.splitHostPort, hn] at he
    exact Or.inl he.symm
  | some hp =>
    cases ha : atoi hp.2 with
    | none =>
      simp [Serf.splitHostPort, hn, ha] at he
      exact Or.inr he.symm
    | some p =>
      simp [Serf.splitHostPort, hn, ha] at he

/-- C4: a malformed bind or advertise address makes `Start` return one of
the two parse errors and leaves the background loop unlaunched; a malformed
host:port pair yields `ErrParseAddrToHostPort` while a non-numeric port
yields `ErrParsePort`, and the two kinds are distinguishable. -/
theorem start_parse_error_leaves_no_loop (m : Member) (tr : Transport)
    (h : isErr (Serf.splitHostPort m.Advertise) = true ∨
      isErr (Serf.splitHostPort m.Addr) = true) :
    (∃ e, (Serf.Start NewSerf m tr).1 = some e ∧
      (e = SrouterError.ErrParseAddrToHostPort ∨ e = SrouterError.ErrParsePort)) ∧
    (Serf.Start NewSerf m tr).2.loopStarted = false ∧
    (∀ a, netSplitHostPort a = none →
      Serf.splitHostPort a = Except.error SrouterError.ErrParseAddrToHostPort) ∧
    (∀ a hp, netSplitHostPort a = some hp → atoi hp.2 = none →
      Serf.splitHostPort a = Except.error SrouterError.ErrParsePort) ∧
    SrouterError.ErrParseAddrToHostPort ≠ SrouterError.ErrParsePort := by
  refine ⟨?_, ?_, fun a hn => by simp [Serf.splitHostPort, hn],
    fun a hp hn ha => by simp [Serf.splitHostPort, hn, ha], by simp⟩
  · cases hadv : Serf.splitHostPort m.Advertise with
    | error e =>
      exact ⟨e, by simp [Serf.Start, hadv],
        splitHostPort_error_kinds m.Advertise e hadv⟩
    | ok v =>
      cases haddr : Serf.splitHostPort m.Addr with
      | error e =>
        exact ⟨e, by simp [Serf.Start, hadv, haddr],
          splitHostPort_error_kinds m.Addr e haddr⟩
      | ok v2 =>
        rcases h with h | h <;> simp [isErr, hadv, haddr] at h
  · cases hadv : Serf.splitHostPort m.Advertise with
    | error e => simp [Serf.Start, hadv, NewSerf]
    | ok v =>
      cases haddr : Serf.splitHostPort m.Addr with
      | error e => simp [Serf.Start, hadv, haddr, NewSerf]
      | ok v2 =>
        rcases h with h | h <;> simp [isErr, hadv, haddr] at h

/-- C4 witness: a portless advertise address makes `Start` fail the parse
and leave the loop unlaunched. -/
theorem start_parse_error_leaves_no_loop_witness :
    (isErr (Serf.splitHostPort mBadAdvertise.Advertise) = true ∨
      isErr (Serf.splitHostPort mBadAdvertise.Addr) = true) ∧
    (Serf.Start NewSerf mBadAdvertise trOk).2.loopStarted = false :=
  ⟨Or.inl rfl,
    (start_parse_error_leaves_no_loop mBadAdvertise trOk (Or.inl rfl)).2.1⟩

theorem start_eventsCh_opened (m : Member) (tr : Transport) :
    (Serf.Start NewSerf m tr).2.eventsCh = ChanState.opened := by
  cases h1 : Serf.splitHostPort m.Advertise with
  | error e => simp [Serf.Start, h1]
  | ok v =>
    cases h2 : Serf.splitHostPort m.Addr with
    | error e => simp [Serf.Start, h1, h2]
    | ok v2 =>
      cases h3 : tr.createResult with
      | some msg => simp [Serf.Start, h1, h2, h3]
      | none =>
        by_cases hr : m.Routers.length > 0 <;>
          simp [Serf.Start, h1, h2, h3, hr]

/-- C8: calling `Stop` on a never-started `Serf` faults on closing the
never-created (nil) event channel, while after a completed successful
`Start` the channel exists and `Stop` succeeds — so a succeeded `Start` is
the usage precondition for safe shutdown. -/
theorem stop_before_start_faults (m : Member) (tr : Transport)
    (_hstart : (Serf.Start NewSerf m tr).1 = none) :
    Serf.Stop NewSerf = Except.error RuntimeFault.closeOfNilChannel ∧
    (∃ s2, Serf.Stop (Serf.Start NewSerf m tr).2 = Except.ok s2) := by
  refine ⟨rfl, ?_⟩
  have hopen := start_eventsCh_opened m tr
  by_cases hc : (Serf.Start NewSerf m tr).2.serfCreated <;>
    simp [Serf.Stop, hc, hopen, closeChannel]

/-- C8 witness: stopping the fresh state faults on the nil channel, while a
successfully started node exists to witness the precondition. -/
theorem stop_before_start_faults_witness :
    (Serf.Start NewSerf mGood trOk).1 = none ∧
    Serf.Stop NewSerf = Except.error RuntimeFault.closeOfNilChannel :=
  ⟨rfl, (stop_before_start_faults mGood trOk rfl).1⟩

/-- C9: when the addresses parse and transport creation succeeds, `Start`
returns no error and launches the loop even though seed routers are
configured — whatever error the join inside `Start` produces is discarded
(the transport's join result does not appear in the conclusion). -/
theorem start_discards_join_error (m : Member) (tr : Transport)
    (h1 : isErr (Serf.splitHostPort m.Advertise) = false)
    (h2 : isErr (Serf.splitHostPort m.Addr) = false)
    (h3 : tr.createResult = none)
    (h4 : m.Routers.length > 0) :
    (Serf.Start NewSerf m tr).1 = none ∧
    (Serf.Start NewSerf m tr).2.loopStarted = true := by
  cases ha : Serf.splitHostPort m.Advertise with
  | error e => simp [isErr, ha] at h1
  | ok v =>
    cases hb : Serf.splitHostPort m.Addr with
    | error e => simp [isErr, hb] at h2
    | ok v2 =>
      constructor <;> simp [Serf.Start, ha, hb, h3, h4, NewSerf]

/-- C9 witness: with a configured seed and a transport whose join fails,
`Start` still returns no error. -/
theorem start_discards_join_error_witness :
    trJoinFails.joinResult (mSeeds.Routers.splitOn (",")) =
      some ("no seed reachable") ∧
    (Serf.Start NewSerf mSeeds trJoinFails).1 = none :=
  ⟨rfl,
    (start_discards_join_error mSeeds trJoinFails rfl rfl rfl (by decide)).1⟩

end Srouter
